import Mathlib

/-!
Verification development for the HyperSwitch request dispatcher.

The definitions below are a shallow embedding of the JavaScript sources:
  - lib/hyperswitch.js   (request cloning, recursion cap, /sys protection)
  - lib/handlerTemplate  (declarative handler chains: catch/return_if
    predicates, spec validation, step execution)
  - lib/filters/validator.js (parameter type coercion)
  - lib/router.js        (method registration on route-tree nodes)

Modelling conventions:
  - JavaScript values are modelled by the inductive type Json; `undefined`
    is modelled by Option / JsOpt wrappers where the distinction matters.
  - Machine floats and JSON numbers are modelled by Rat (exact for the
    decimal literals the code manipulates).
  - Mutable objects relevant to aliasing claims live in an explicit heap
    (Mem) of request records addressed by naturals.
  - Promise rejection / thrown errors are modelled by Except.
-/

/-- JSON-like JavaScript values. Numbers are modelled by Rat, which is
exact for every decimal literal the JSON parser and coercion code
handle. -/
inductive Json where
  | null : Json
  | bool (b : Bool) : Json
  | num (n : Rat) : Json
  | str (s : String) : Json
  | arr (elems : List Json) : Json
  | obj (fields : List (String × Json)) : Json

/-- Property lookup res[field]: first binding wins; absent fields are
JavaScript undefined, modelled as none. Non-objects have no properties. -/
def jsGet (v : Json) (field : String) : Option Json :=
  match v with
  | .obj fields => fields.lookup field
  | _ => none

/-- Escape one character for a JSON string literal (the cases the sources
can produce; exotic control characters are left as-is). -/
def escapeJsonChar (c : Char) : String :=
  if c = '"' then "\\\""
  else if c = '\\' then "\\\\"
  else if c = '\n' then "\\n"
  else if c = '\t' then "\\t"
  else if c = '\r' then "\\r"
  else String.singleton c

/-- Render a string as a JSON string literal. -/
def quoteJsonString (s : String) : String :=
  "\"" ++ String.join (s.toList.map escapeJsonChar) ++ "\""

/-- Insert a key/value pair into a key-sorted list (keys compared as
strings, the comparator of json-stable-stringify). -/
def insertByKey (p : String × String) : List (String × String) → List (String × String)
  | [] => [p]
  | q :: qs => if p.1 ≤ q.1 then p :: q :: qs else q :: insertByKey p qs

/-- Sort an association list of already-rendered values by key, as
json-stable-stringify sorts object keys before serialisation. -/
def sortByKey : List (String × String) → List (String × String)
  | [] => []
  | p :: ps => insertByKey p (sortByKey ps)

/-- Fractional digits of rem/den by decimal long division, fuel-bounded.
Exact (the recursion stops at remainder zero) for every terminating
expansion, and every number the JSON parser or coercion code produces
has one. -/
def fracDigitChars (den : Nat) : Nat → Nat → List Char
  | 0, _ => []
  | fuel + 1, rem =>
    if rem == 0 then []
    else
      let r10 := rem * 10
      Char.ofNat (48 + r10 / den) :: fracDigitChars den fuel (r10 % den)

/-- JavaScript rendering of a number value: integers render without a
decimal point, fractional values with their decimal expansion. -/
def ratToJsString (q : Rat) : String :=
  if q.den == 1 then toString q.num
  else
    let sign := if q.num < 0 then "-" else ""
    let np := q.num.natAbs
    sign ++ toString (np / q.den) ++ "."
      ++ String.mk (fracDigitChars q.den q.den (np % q.den))

mutual

/-- Stable JSON stringification (json-stable-stringify): object keys are
serialised in sorted order, so two objects that differ only in key order
stringify identically. -/
def stringify (j : Json) : String :=
  match j with
  | .null => "null"
  | .bool b => if b then "true" else "false"
  | .num n => ratToJsString n
  | .str s => quoteJsonString s
  | .arr l => "[" ++ String.intercalate "," (stringifyList l) ++ "]"
  | .obj l =>
    let rendered := sortByKey (stringifyFields l)
    "\x7b" ++ String.intercalate ","
      (rendered.map (fun p => quoteJsonString p.1 ++ ":" ++ p.2)) ++ "\x7d"

/-- Render every array element. -/
def stringifyList (l : List Json) : List String :=
  match l with
  | [] => []
  | x :: xs => stringify x :: stringifyList xs

/-- Render every object value, keeping the key. -/
def stringifyFields (l : List (String × Json)) : List (String × String) :=
  match l with
  | [] => []
  | (k, v) :: xs => (k, stringify v) :: stringifyFields xs

end

mutual

/-- JavaScript-style toString used by compileCatchFunction on the value of
a status condition (numbers render as digits, arrays join with commas). -/
def jsToString (j : Json) : String :=
  match j with
  | .null => "null"
  | .bool b => if b then "true" else "false"
  | .num n => ratToJsString n
  | .str s => s
  | .arr l => String.intercalate "," (jsToStringList l)
  | .obj _ => "[object Object]"

/-- toString of each array element. -/
def jsToStringList (l : List Json) : List String :=
  match l with
  | [] => []
  | x :: xs => jsToString x :: jsToStringList xs

end

/-- Digits of a decimal literal folded into a natural number. -/
def natOfDigits (cs : List Char) : Nat :=
  cs.foldl (fun a c => a * 10 + (c.toNat - 48)) 0

/-- Strip an optional leading sign off a numeric literal, reporting
whether the value is negated. -/
def splitSign : List Char → Bool × List Char
  | '-' :: rest => (true, rest)
  | '+' :: rest => (false, rest)
  | rest => (false, rest)

/-- Hexadecimal digit test, for parseInt's automatic 0x radix and JSON
unicode escapes. -/
def isHexDigitJS (c : Char) : Bool :=
  c.isDigit || ('a' ≤ c && c ≤ 'f') || ('A' ≤ c && c ≤ 'F')

/-- Value of one hexadecimal digit. -/
def hexDigitVal (c : Char) : Nat :=
  if c.isDigit then c.toNat - 48
  else if 'a' ≤ c && c ≤ 'f' then c.toNat - 87
  else c.toNat - 55

/-- Hex digits folded into a natural number. -/
def natOfHexDigits (cs : List Char) : Nat :=
  cs.foldl (fun a c => a * 16 + hexDigitVal c) 0

/-- The hexadecimal body after a 0x prefix in parseInt: a non-empty hex
digit run, NaN (none) otherwise. -/
def parseIntHex (neg : Bool) (cs : List Char) : Option Int :=
  let digits := cs.takeWhile isHexDigitJS
  if digits.isEmpty then none
  else if neg then some (-(natOfHexDigits digits : Int))
  else some (natOfHexDigits digits : Int)

/-- JavaScript parseInt on a string with no radix argument: skip leading
whitespace and an optional sign; a 0x/0X prefix switches to hexadecimal;
otherwise a non-empty decimal digit run; anything else is NaN (none). -/
def parseIntJS (s : String) : Option Int :=
  let (neg, cs) := splitSign (s.toList.dropWhile Char.isWhitespace)
  match cs with
  | '0' :: 'x' :: rest => parseIntHex neg rest
  | '0' :: 'X' :: rest => parseIntHex neg rest
  | _ =>
    let digits := cs.takeWhile Char.isDigit
    if digits.isEmpty then none
    else if neg then some (-(natOfDigits digits : Int))
    else some (natOfDigits digits : Int)

/-- The numeric value sign.intDigits.fracDigits e expVal, shared by
parseFloat and the JSON number parser. -/
def jsonNumValue (neg : Bool) (intDigits fracDigits : List Char) (expVal : Int) : Rat :=
  let mantissa : Rat := (natOfDigits intDigits : Rat) +
    (natOfDigits fracDigits : Rat) / ((10 : Rat) ^ fracDigits.length)
  let scaled : Rat :=
    if 0 ≤ expVal then mantissa * (10 : Rat) ^ expVal.toNat
    else mantissa / (10 : Rat) ^ (-expVal).toNat
  if neg then -scaled else scaled

/-- The exponent part of a parseFloat literal: optional sign and digits;
with no digit the exponent marker is ignored (parseFloat of 1e is 1). -/
def parseFloatExp (cs : List Char) : Int :=
  let (eneg, cs1) := splitSign cs
  let ds := cs1.takeWhile Char.isDigit
  if ds.isEmpty then 0
  else if eneg then -(natOfDigits ds : Int)
  else (natOfDigits ds : Int)

/-- JavaScript parseFloat on a string: skip leading whitespace, optional
sign, digits with an optional fractional part and an optional e/E
exponent; NaN (none) when no mantissa digit is found. Modelled over Rat,
exact for decimal literals. -/
def parseFloatJS (s : String) : Option Rat :=
  let (neg, cs) := splitSign (s.toList.dropWhile Char.isWhitespace)
  let intDigits := cs.takeWhile Char.isDigit
  let rest1 := cs.drop intDigits.length
  let (fracDigits, rest2) : List Char × List Char :=
    match rest1 with
    | '.' :: r => (r.takeWhile Char.isDigit, r.drop (r.takeWhile Char.isDigit).length)
    | _ => ([], rest1)
  if intDigits.isEmpty && fracDigits.isEmpty then none
  else
    let expVal : Int :=
      match rest2 with
      | 'e' :: r => parseFloatExp r
      | 'E' :: r => parseFloatExp r
      | _ => 0
    some (jsonNumValue neg intDigits fracDigits expVal)

/-- Does the list start with the given pattern? -/
def isPrefixList : List Char → List Char → Bool
  | [], _ => true
  | _ :: _, [] => false
  | a :: as, b :: bs => a == b && isPrefixList as bs

/-- Substring containment, the semantics of an unanchored regex
alternative in a JavaScript test(). -/
def listHasSub (needle : List Char) : List Char → Bool
  | [] => needle.isEmpty
  | c :: rest => isPrefixList needle (c :: rest) || listHasSub needle rest

/-- Substring containment on strings. -/
def hasSub (needle hay : String) : Bool :=
  listHasSub needle.toList hay.toList

/-- The string s begins with the given characters (an anchored ^pre
regex test). -/
def strStartsWith (s pre : String) : Bool :=
  isPrefixList pre.toList s.toList

/-- The string s ends with the given characters (an anchored suf$ regex
test). -/
def strEndsWith (s suf : String) : Bool :=
  isPrefixList suf.toList.reverse s.toList.reverse

/-- ASCII lower-casing of one character (the effect of a JavaScript i
regex flag on the inputs involved). -/
def charToLower (c : Char) : Char :=
  if 65 ≤ c.toNat ∧ c.toNat ≤ 90 then Char.ofNat (c.toNat + 32) else c

/-- ASCII lower-casing of a string. -/
def strToLower (s : String) : String :=
  String.mk (s.toList.map charToLower)

/-! ## Request objects and the dispatcher (lib/hyperswitch.js) -/

/-- A JavaScript optional slot that distinguishes undefined from null. -/
inductive JsOpt (α : Type) where
  | undefined : JsOpt α
  | null : JsOpt α
  | val (a : α) : JsOpt α
deriving DecidableEq

/-- A HyperSwitch request record (the top-level fields cloneRequest
manipulates). URIs are modelled as their path segment lists; none stands
for an absent (undefined/null) field. -/
structure Request where
  url : Option (List String) := none
  uri : Option (List String) := none
  method : Option String := none
  headers : Option (List (String × String)) := none
  query : Option (List (String × String)) := none
  body : JsOpt String := .undefined
  params : Option (List (String × String)) := none
deriving DecidableEq

/-- cloneRequest from lib/hyperswitch.js: a shallow copy with url cleared,
uri taken from uri || url, and defaults method='get', headers=\x7b\x7d,
query=\x7b\x7d, body=null (only when undefined), params=\x7b\x7d. -/
def cloneRequest (req : Request) : Request :=
  { url := none
  , uri := req.uri <|> req.url
  , method := some (req.method.getD "get")
  , headers := some (req.headers.getD [])
  , query := some (req.query.getD [])
  , body := match req.body with
      | .undefined => .null
      | b => b
  , params := some (req.params.getD []) }

/-- A heap of request objects: JavaScript aliasing is modelled by
addresses into this heap, with a bump allocator. -/
structure Mem where
  heap : Nat → Request
  next : Nat

/-- Dereference an address. -/
def readReq (m : Mem) (a : Nat) : Request := m.heap a

/-- Overwrite the record at an address (an in-place object mutation). -/
def writeReq (m : Mem) (a : Nat) (r : Request) : Mem :=
  { m with heap := fun x => if x = a then r else m.heap x }

/-- Allocate a fresh object holding the given record. -/
def allocReq (m : Mem) (r : Request) : Mem × Nat :=
  ({ heap := fun x => if x = m.next then r else m.heap x, next := m.next + 1 }, m.next)

/-- The var childReq = cloneRequest(req) line of filteredRequest: the
clone is a fresh allocation, never the caller's object. -/
def cloneRequestAt (m : Mem) (a : Nat) : Mem × Nat :=
  allocReq m (cloneRequest (readReq m a))

/-- HyperSwitch.prototype.request: if req.method is set it is lower-cased
by assignment on the caller's own object, then the request is dispatched
through filteredRequest, which takes the shallow clone. Returns the heap
after the entry steps and the address of the clone. -/
def requestEntry (m : Mem) (a : Nat) : Mem × Nat :=
  let req := readReq m a
  let m1 := match req.method with
    | some verb => writeReq m a { req with method := some verb.toLower }
    | none => m
  cloneRequestAt m1 a

/-- Error body carried by an HTTPError thrown by the dispatcher. Fields
not used by a given error keep their defaults. -/
structure ErrBody where
  type : String
  title : String := ""
  detail : String := ""
  parents : List (Option Request) := []
  depth : Option Nat := none
deriving DecidableEq

/-- An HTTPError value: status plus problem body. -/
structure HTTPError where
  status : Nat
  body : ErrBody
deriving DecidableEq

/-- The chain of HyperSwitch instances: the root instance has no request
attached (its req field is null); each child remembers the request that
created it. The recursion depth is the number of child links. -/
inductive HSInstance where
  | root : HSInstance
  | child (req : Request) (par : HSInstance) : HSInstance

/-- recursionDepth of an instance. -/
def HSInstance.depth : HSInstance → Nat
  | .root => 0
  | .child _ p => p.depth + 1

/-- The req field of an instance (null on the root instance). -/
def HSInstance.selfReq : HSInstance → Option Request
  | .root => none
  | .child r _ => some r

/-- The parents chain computed by checkMaxRecursionDepth: walk from the
parent upwards pushing each ancestor instance's req. -/
def HSInstance.ancestors : HSInstance → List (Option Request)
  | .root => []
  | .child _ p => p.selfReq :: p.ancestors

/-- options.maxDepth = options.maxDepth || 10 (falsy values, including an
explicit 0, fall back to the default 10). -/
def defaultMaxDepth : Option Nat → Nat
  | none => 10
  | some 0 => 10
  | some k => k

/-- checkMaxRecursionDepth: when the instance's depth exceeds maxDepth,
throw a 500 whose body carries the chain of parent requests and the
current depth; otherwise a no-op. -/
def checkMaxRecursionDepth (maxDepth : Nat) (inst : HSInstance) : Option HTTPError :=
  if inst.depth > maxDepth then
    some
      { status := 500
      , body :=
        { type := "server_error#request_recursion_depth_exceeded"
        , title := "HyperSwitch request recursion depth exceeded."
        , parents := inst.ancestors
        , depth := some inst.depth } }
  else none

/-- isSysRequest: params.api is 'sys', or the URI path has a second
segment and it is 'sys'. -/
def isSysRequest (req : Request) : Bool :=
  ((req.params.getD []).lookup "api" == some "sys")
    || (match req.uri with
        | some path => decide (path.length > 1) && (path[1]? == some "sys")
        | none => false)

/-- checkInternalApiRequest: reject /sys requests at recursion depth 0
with 403 forbidden#sys; a no-op at any depth > 0. -/
def checkInternalApiRequest (depth : Nat) (req : Request) : Option HTTPError :=
  if depth == 0 && isSysRequest req then
    some
      { status := 403
      , body :=
        { type := "forbidden#sys"
        , title := "Access to the /sys hierarchy is restricted to system users." } }
  else none

/-- A response produced by a handler. -/
structure HResponse where
  status : Nat
  body : Json

/-- A route-tree match: the parameters captured by routing and the handler
selected for the request method. -/
structure RouteMatch where
  params : List (String × String)
  handler : Request → HResponse

/-- The routing core of HyperSwitch.prototype._request, restricted to the
steps the reserved-segment claims depend on: no match is a 404
not_found#route; on a match the captured params are copied into the
request, the internal-API check runs, and only then the handler is
invoked. -/
def routeAndInvoke (depth : Nat) (req : Request) (mtch : Option RouteMatch) :
    Except HTTPError HResponse :=
  match mtch with
  | none => .error { status := 404, body := { type := "not_found#route", title := "Not found.", depth := some depth } }
  | some m =>
    let req2 := { req with params := some m.params }
    match checkInternalApiRequest depth req2 with
    | some e => .error e
    | none => .ok (m.handler req2)

/-- Dispatch of a handler that immediately re-dispatches its own request:
each level first runs checkMaxRecursionDepth on the current instance,
then clones the request, creates the child instance that the handler runs
on, and recurses. Returns the number of handler entries made and the
error that ended the recursion. The fuel argument only bounds the
modelled recursion; theorems instantiate it large enough that it is never
exhausted. -/
def selfLoop (maxDepth : Nat) : Nat → Request → HSInstance → Nat × Option HTTPError
  | 0, _, _ => (0, none)
  | fuel + 1, req, inst =>
    match checkMaxRecursionDepth maxDepth inst with
    | some e => (0, some e)
    | none =>
      let creq := cloneRequest req
      let r := selfLoop maxDepth fuel creq (.child creq inst)
      (r.1 + 1, r.2)

/-! ## Declarative handler chains (lib/handlerTemplate.js) -/

/-- The value of one field of a catch / return_if condition: either a
single value or an array of alternatives (a disjunction). -/
inductive CatchVal where
  | one (v : Json) : CatchVal
  | many (vs : List Json) : CatchVal

/-- A catch / return_if condition: a mapping field -> value, in key
order. All fields must match (conjunction). -/
abbrev CatchDef := List (String × CatchVal)

/-- Non-empty all-digit string, the test ^[0-9]+$. -/
def isAllDigits (s : String) : Bool :=
  !s.isEmpty && s.toList.all Char.isDigit

/-- Non-empty string of digits and lowercase x, the test ^[0-9x]+$. -/
def isDigitsXPattern (s : String) : Bool :=
  !s.isEmpty && s.toList.all (fun c => c.isDigit || c = 'x')

/-- Character-wise match of a digits-and-x pattern (x already replaced by
a digit wildcard) against a rendered status, anchored at both ends. -/
def patternChars : List Char → List Char → Bool
  | [], [] => true
  | p :: ps, c :: cs => (if p = 'x' then c.isDigit else p == c) && patternChars ps cs
  | _, _ => false

/-- The strict comparison res["status"] === n produced for an all-digit
status condition. -/
def statusEqNum (res : Json) (n : Rat) : Bool :=
  match jsGet res "status" with
  | some (.num m) => m == n
  | _ => false

/-- The generated res["status"].toString().match(^pat$) test for a
digits-and-x status condition. -/
def statusPatternTest (pat : String) (res : Json) : Bool :=
  match jsGet res "status" with
  | some j => patternChars pat.toList (jsToString j).toList
  | none => false

/-- The generated stringify(res[field]) === stringify(value) comparison
for a non-status condition field. -/
def stringifyFieldEq (field : String) (v : Json) (res : Json) : Bool :=
  match jsGet res field with
  | some j => stringify j == stringify v
  | none => false

/-- createCondition inside compileCatchFunction: build the predicate for
one field/value pair, failing on a status condition that is neither an
integer nor a digits-and-x pattern. -/
def createCondition (field : String) (v : Json) : Except String (Json → Bool) :=
  if field == "status" then
    let opt := jsToString v
    if isAllDigits opt then
      .ok (fun res => statusEqNum res (natOfDigits opt.toList : Rat))
    else if isDigitsXPattern opt then
      .ok (fun res => statusPatternTest opt res)
    else
      .error ("Invalid catch condition " ++ opt)
  else
    .ok (fun res => stringifyFieldEq field v res)

/-- The || chain generated for an array-valued condition field. An empty
array yields syntactically invalid generated code, which new Function
rejects. -/
def compileOr (field : String) : List Json → Except String (Json → Bool)
  | [] => .error "SyntaxError: invalid generated condition"
  | [v] => createCondition field v
  | v :: rest => do
    let p ← createCondition field v
    let q ← compileOr field rest
    .ok (fun res => p res || q res)

/-- The predicate for one field of the catch definition. -/
def compileField (field : String) : CatchVal → Except String (Json → Bool)
  | .one v => createCondition field v
  | .many vs => compileOr field vs

/-- The && chain over all fields of the catch definition. An empty
definition yields syntactically invalid generated code. -/
def compileAnd : List (String × CatchVal) → Except String (Json → Bool)
  | [] => .error "SyntaxError: invalid generated condition"
  | [(f, cv)] => compileField f cv
  | (f, cv) :: rest => do
    let p ← compileField f cv
    let q ← compileAnd rest
    .ok (fun res => p res && q res)

/-- compileCatchFunction: compile a catch / return_if definition into a
predicate over a response value. -/
def compileCatchFunction (cd : CatchDef) : Except String (Json → Bool) :=
  compileAnd cd

/-- One field/value pair matches a response, as the specification words
it: an all-digit status value matches by integer equality, a
digits-and-x status pattern matches digit-wise, and any other field
matches by stable-stringified JSON equality. -/
def atomMatchesSpec (field : String) (v : Json) (res : Json) : Prop :=
  (field = "status" ∧ isAllDigits (jsToString v) = true ∧
    statusEqNum res (natOfDigits (jsToString v).toList : Rat) = true)
  ∨ (field = "status" ∧ isAllDigits (jsToString v) = false ∧
    isDigitsXPattern (jsToString v) = true ∧ statusPatternTest (jsToString v) res = true)
  ∨ (field ≠ "status" ∧ stringifyFieldEq field v res = true)

/-- One field of the condition matches: a single value directly, an array
when some element matches (disjunction). -/
def fieldMatchesSpec (field : String) (cv : CatchVal) (res : Json) : Prop :=
  match cv with
  | .one v => atomMatchesSpec field v res
  | .many vs => ∃ v ∈ vs, atomMatchesSpec field v res

/-- The whole condition matches: every field matches (conjunction). This
is the specification-side description that the compiled predicate is
compared against. -/
def catchMatchesSpec (cd : CatchDef) (res : Json) : Prop :=
  ∀ p ∈ cd, fieldMatchesSpec p.1 p.2 res

/-- One stanza of a handler-chain step, keeping the properties the
validator and compiler inspect: whether a request template is present,
the truthiness of return, and the optional return_if / catch
conditions. -/
structure Stanza where
  request : Bool := false
  ret : Bool := false
  return_if : Option CatchDef := none
  catchDef : Option CatchDef := none

/-- One step of a handler chain: a mapping request-name -> stanza in key
order. -/
abbrev StepConf := List (String × Stanza)

/-- countReturnsInStep: the number of stanzas carrying return (and, with
conditionals, return_if). -/
def countReturnsInStep (step : StepConf) (withConditionals : Bool) : Nat :=
  (step.filter (fun p => p.2.ret || (withConditionals && p.2.return_if.isSome))).length

/-- A compact rendering of a step used in error diagnostics (stands in
for the JSON.stringify payload of the real messages). -/
def stepDesc (step : StepConf) : String :=
  String.intercalate "," (step.map Prod.fst)

/-- validateStep: returning stanzas cannot be parallel; every stanza
needs request or return; return_if and catch need a request. The checks
run in this order and the first failure is reported. -/
def validateStep (step : StepConf) : Except String Unit :=
  if countReturnsInStep step true > 1 then
    .error ("Invalid spec. Returning requests cannot be parallel. Spec: " ++ stepDesc step)
  else if !(step.all fun p => p.2.request || p.2.ret) then
    .error ("Invalid spec. Either request or return must be specified. Step: " ++ stepDesc step)
  else if step.any fun p => p.2.return_if.isSome && !p.2.request then
    .error ("Invalid spec. return_if should have a matching request. Step: " ++ stepDesc step)
  else if step.any fun p => p.2.catchDef.isSome && !p.2.request then
    .error ("Invalid spec. catch should have a matching request. Step: " ++ stepDesc step)
  else .ok ()

/-- Validate every step in order, stopping at the first failure. -/
def validateAll : List StepConf → Except String Unit
  | [] => .ok ()
  | step :: rest => do
    validateStep step
    validateAll rest

/-- The raw value handed to createHandler: either not an array at all, or
a list of steps. -/
inductive SpecVal where
  | notArray : SpecVal
  | arr (steps : List StepConf) : SpecVal

/-- validateSpec: reject non-arrays; validate each step; the last step
must carry a return unless it is a single stanza, in which case
return: true is implied by rewriting that stanza. An empty array makes
the source crash on spec[-1]; that crash is modelled as a TypeError
result. -/
def validateSpec : SpecVal → Except String (List StepConf)
  | .notArray =>
    .error "Invalid spec. It must be an array of request block definitions. Spec: undefined"
  | .arr steps => do
    validateAll steps
    match steps.getLast? with
    | none => .error "TypeError: cannot read properties of undefined"
    | some last =>
      if countReturnsInStep last false == 0 then
        match last with
        | [] => .error "TypeError: cannot read properties of undefined"
        | [(n, st)] => .ok (steps.dropLast ++ [[(n, { st with ret := true })]])
        | _ => .error "Invalid spec. Need a return if the last step is parallel."
      else .ok steps

/-- The return decision compiled for one stanza: shouldReturn in
makeRequestHandler. return_if takes precedence over return; a bare
return is unconditional; otherwise the stanza never returns. -/
inductive RetKind where
  | unconditional : RetKind
  | conditional (p : Json → Bool) : RetKind
  | noReturn : RetKind

/-- A stanza after compilation by makeRequestHandler. -/
structure CompiledStanza where
  name : String
  hasRequest : Bool
  catchPred : Option (Json → Bool)
  retKind : RetKind

/-- Compile one named stanza, mirroring makeRequestHandler: the catch and
return_if conditions are compiled into predicates (compile errors
propagate out of createHandler); a stanza without request compiles to no
request handler. -/
def compileStanza (name : String) (s : Stanza) : Except String CompiledStanza :=
  if s.request then do
    let cp ← match s.catchDef with
      | some cd => Except.map some (compileCatchFunction cd)
      | none => pure none
    let rk ← match s.return_if with
      | some cd => Except.map RetKind.conditional (compileCatchFunction cd)
      | none => pure (if s.ret then RetKind.unconditional else RetKind.noReturn)
    .ok { name := name, hasRequest := true, catchPred := cp, retKind := rk }
  else
    .ok { name := name, hasRequest := false, catchPred := none, retKind := .noReturn }

/-- Evaluate the compiled shouldReturn on a settled response: the name to
return, or none. -/
def applyShould (cs : CompiledStanza) (res : Json) : Option String :=
  match cs.retKind with
  | .unconditional => some cs.name
  | .conditional p => if p res then some cs.name else none
  | .noReturn => none

/-- Assignment ctx.model[name] = v: replace the binding or append it. -/
def updModel : List (String × Json) → String → Json → List (String × Json)
  | [], k, v => [(k, v)]
  | (k2, v2) :: rest, k, v =>
    if k2 = k then (k, v) :: rest else (k2, v2) :: updModel rest k v

/-- The mutable execution context of a compiled handler: the model of
settled responses and the _doReturn flag (false modelled as none). -/
structure Ctx where
  model : List (String × Json)
  doReturn : Option String

/-- A rejected sub-request propagating out of a step: the error value,
the requestName tag attached to it, and the context state at the throw
(the model assignment already performed by the catch branch persists). -/
structure StanzaErr where
  err : Json
  requestName : String
  ctx : Ctx

/-- Run the compiled request phase of one stanza against an environment
assigning each request name the settled outcome of its sub-request.
Mirrors the three specialisations of makeRequestHandler plus the
requestName tagging of makeStepRequestHandler:
with a catch predicate the error is stored and either swallowed (catch
matches, _doReturn ors in shouldReturn) or tagged and re-thrown;
a bare unconditional return sets _doReturn before the request; otherwise
_doReturn ors in shouldReturn on fulfillment. -/
def runStanzaRequest (env : String → Except Json Json) (cs : CompiledStanza)
    (ctx : Ctx) : Except StanzaErr Ctx :=
  if cs.hasRequest then
    match cs.catchPred with
    | some cp =>
      match env cs.name with
      | .ok res =>
        .ok { model := updModel ctx.model cs.name res
            , doReturn := ctx.doReturn <|> applyShould cs res }
      | .error e =>
        let m2 := updModel ctx.model cs.name e
        if cp e then
          .ok { model := m2, doReturn := ctx.doReturn <|> applyShould cs e }
        else
          .error { err := e, requestName := cs.name, ctx := { ctx with model := m2 } }
    | none =>
      match cs.retKind with
      | .unconditional =>
        match env cs.name with
        | .ok res =>
          .ok { model := updModel ctx.model cs.name res, doReturn := some cs.name }
        | .error e =>
          .error { err := e, requestName := cs.name
                 , ctx := { ctx with doReturn := some cs.name } }
      | _ =>
        match env cs.name with
        | .ok res =>
          .ok { model := updModel ctx.model cs.name res
              , doReturn := ctx.doReturn <|> applyShould cs res }
        | .error e =>
          .error { err := e, requestName := cs.name, ctx := ctx }
  else .ok ctx

/-- Run all stanzas of one step (the request phase; with boolean return
stanzas there are no response-massaging handlers). -/
def runStepStanzas (env : String → Except Json Json) :
    List CompiledStanza → Ctx → Except StanzaErr Ctx
  | [], ctx => .ok ctx
  | cs :: rest, ctx =>
    match runStanzaRequest env cs ctx with
    | .ok ctx2 => runStepStanzas env rest ctx2
    | .error e => .error e

/-- ctx.model[ctx._doReturn], the value a finished chain produces
(undefined, i.e. none, when _doReturn was never set or names a missing
model entry). -/
def lookupReturn (ctx : Ctx) : Option Json :=
  match ctx.doReturn with
  | some r => ctx.model.lookup r
  | none => none

/-- runStep from handlerTemplate.js: run steps in order; after every step
but the last, halt with ctx.model[_doReturn] as soon as _doReturn is set;
the last step always yields ctx.model[_doReturn]. -/
def runSteps (env : String → Except Json Json) :
    List (List CompiledStanza) → Ctx → Except StanzaErr (Option Json)
  | [], _ => .ok none
  | [st], ctx => Except.map lookupReturn (runStepStanzas env st ctx)
  | st :: rest, ctx => do
    let ctx2 ← runStepStanzas env st ctx
    if ctx2.doReturn.isSome then .ok (lookupReturn ctx2)
    else runSteps env rest ctx2

/-! ## Parameter coercion (lib/filters/validator.js) -/

/-- The declared schema type of a parameter, as inspected by the
generated coercion code. -/
inductive ParamType where
  | integer : ParamType
  | number : ParamType
  | boolean : ParamType
  | object : ParamType
  | string : ParamType
deriving DecidableEq

/-- An in-memory parameter value after query/header parsing: incoming
values are strings; coercion may replace them with numbers, booleans or
parsed JSON. -/
inductive ParamValue where
  | str (s : String) : ParamValue
  | num (q : Rat) : ParamValue
  | bool (b : Bool) : ParamValue
  | json (j : Json) : ParamValue

/-- The 400 bad_request error thrown by generated coercion code. -/
def coercionError (detail : String) : HTTPError :=
  { status := 400
  , body := { type := "bad_request", title := "Invalid parameters", detail := detail } }

/-- The validity test generated for boolean parameters, the regex
test of ^true|false|1|0|yes|no$ with the i flag: because the
alternatives are unanchored except the first and last, this accepts any
string starting with true, containing false, 1, 0 or yes, or ending
with no (case-insensitively). -/
def validBoolJS (s : String) : Bool :=
  let l := strToLower s
  strStartsWith l "true" || hasSub "false" l || hasSub "1" l
    || hasSub "0" l || hasSub "yes" l || strEndsWith l "no"

/-- The value test generated for boolean parameters, the regex test of
^true|1|yes$ with the i flag: the first alternative is start-anchored,
the middle 1 is unanchored, and the last alternative is end-anchored
(yes$). -/
def boolValueJS (s : String) : Bool :=
  let l := strToLower s
  strStartsWith l "true" || hasSub "1" l || strEndsWith l "yes"

/-- Skip JSON whitespace. -/
def skipWs (cs : List Char) : List Char :=
  cs.dropWhile (fun c => c = ' ' || c = '\n' || c = '\t' || c = '\r')

/-- The character denoted by a single-character JSON escape. -/
def escapedChar (c : Char) : Option Char :=
  if c = '"' then some '"'
  else if c = '\\' then some '\\'
  else if c = '/' then some '/'
  else if c = 'n' then some '\n'
  else if c = 't' then some '\t'
  else if c = 'r' then some '\r'
  else if c = 'b' then some (Char.ofNat 8)
  else if c = 'f' then some (Char.ofNat 12)
  else none

/-- The body of a JSON string literal after its opening quote, with
single-character and \u escapes: the decoded content and the rest of
the input after the closing quote. -/
def parseJsonString : List Char → Option (List Char × List Char)
  | [] => none
  | '"' :: rest => some ([], rest)
  | '\\' :: 'u' :: h1 :: h2 :: h3 :: h4 :: rest =>
    if isHexDigitJS h1 && isHexDigitJS h2 && isHexDigitJS h3 && isHexDigitJS h4 then
      (parseJsonString rest).map (fun p =>
        (Char.ofNat (((hexDigitVal h1 * 16 + hexDigitVal h2) * 16 + hexDigitVal h3) * 16
          + hexDigitVal h4) :: p.1, p.2))
    else none
  | '\\' :: e :: rest =>
    (match escapedChar e with
     | some c => (parseJsonString rest).map (fun p => (c :: p.1, p.2))
     | none => none)
  | c :: rest =>
    (parseJsonString rest).map (fun p => (c :: p.1, p.2))

/-- The exponent part of a JSON number, which requires at least one
digit after the e/E marker and an optional sign. -/
def parseJsonExpTail (neg : Bool) (intDigits fracDigits : List Char)
    (cs : List Char) : Option (Rat × List Char) :=
  let (eneg, cs1) := splitSign cs
  let ed := cs1.takeWhile Char.isDigit
  if ed.isEmpty then none
  else
    some (jsonNumValue neg intDigits fracDigits
        (if eneg then -(natOfDigits ed : Int) else (natOfDigits ed : Int)),
      cs1.drop ed.length)

/-- The optional exponent of a JSON number. -/
def parseJsonExp (neg : Bool) (intDigits fracDigits : List Char)
    (cs : List Char) : Option (Rat × List Char) :=
  match cs with
  | 'e' :: r => parseJsonExpTail neg intDigits fracDigits r
  | 'E' :: r => parseJsonExpTail neg intDigits fracDigits r
  | _ => some (jsonNumValue neg intDigits fracDigits 0, cs)

/-- A JSON number literal: optional minus, an integer part without a
leading zero, an optional fraction, an optional exponent. -/
def parseJsonNumber (cs : List Char) : Option (Rat × List Char) :=
  let (neg, cs1) : Bool × List Char :=
    match cs with
    | '-' :: r => (true, r)
    | r => (false, r)
  let intDigits := cs1.takeWhile Char.isDigit
  if intDigits.isEmpty then none
  else if intDigits.length > 1 && intDigits.headD '0' == '0' then none
  else
    let rest1 := cs1.drop intDigits.length
    match rest1 with
    | '.' :: r =>
      let fd := r.takeWhile Char.isDigit
      if fd.isEmpty then none
      else parseJsonExp neg intDigits fd (r.drop fd.length)
    | _ => parseJsonExp neg intDigits [] rest1

mutual

/-- A small recursive-descent JSON parser modelling JSON.parse on the
inputs the validator sees (objects, arrays, strings with escapes,
numbers with fraction and exponent, booleans, null). The fuel argument
bounds recursion depth and is instantiated with the input length. -/
def parseJsonVal (fuel : Nat) (cs : List Char) : Option (Json × List Char) :=
  match fuel with
  | 0 => none
  | fuel + 1 =>
    match skipWs cs with
    | 'n' :: 'u' :: 'l' :: 'l' :: rest => some (.null, rest)
    | 't' :: 'r' :: 'u' :: 'e' :: rest => some (.bool true, rest)
    | 'f' :: 'a' :: 'l' :: 's' :: 'e' :: rest => some (.bool false, rest)
    | '"' :: rest =>
      (parseJsonString rest).map (fun p => (Json.str (String.mk p.1), p.2))
    | '[' :: rest =>
      (match skipWs rest with
       | ']' :: rest2 => some (.arr [], rest2)
       | _ => (parseJsonItems fuel rest).map (fun p => (Json.arr p.1, p.2)))
    | '\x7b' :: rest =>
      (match skipWs rest with
       | '\x7d' :: rest2 => some (.obj [], rest2)
       | _ => (parseJsonFields fuel rest).map (fun p => (Json.obj p.1, p.2)))
    | cs2 =>
      (parseJsonNumber cs2).map (fun p => (Json.num p.1, p.2))

/-- Comma-separated array elements up to the closing bracket. -/
def parseJsonItems (fuel : Nat) (cs : List Char) : Option (List Json × List Char) :=
  match fuel with
  | 0 => none
  | fuel + 1 => do
    let (v, rest) ← parseJsonVal fuel cs
    match skipWs rest with
    | ',' :: rest2 => (parseJsonItems fuel rest2).map (fun p => (v :: p.1, p.2))
    | ']' :: rest2 => some ([v], rest2)
    | _ => none

/-- Comma-separated string-keyed members up to the closing brace. -/
def parseJsonFields (fuel : Nat) (cs : List Char) :
    Option (List (String × Json) × List Char) :=
  match fuel with
  | 0 => none
  | fuel + 1 => do
    match skipWs cs with
    | '"' :: rest =>
      (match parseJsonString rest with
       | some (key, rest2) =>
         (match skipWs rest2 with
          | ':' :: rest3 => do
            let (v, rest4) ← parseJsonVal fuel rest3
            (match skipWs rest4 with
             | ',' :: rest5 =>
               (parseJsonFields fuel rest5).map (fun p => ((String.mk key, v) :: p.1, p.2))
             | '\x7d' :: rest5 => some ([(String.mk key, v)], rest5)
             | _ => none)
          | _ => none)
       | none => none)
    | _ => none

end

/-- JSON.parse on a string: the whole input must be consumed up to
trailing whitespace. -/
def jsonParseJS (s : String) : Option Json := do
  let (v, rest) ← parseJsonVal (s.length + 1) s.toList
  if (skipWs rest).isEmpty then some v else none

/-- The coercion code generated per non-string parameter by
_createTypeCoercionFunc, applied to one parameter value: only string
values are touched (the typeof guard); integer and number parse with
parseInt/parseFloat and fail with 400 on NaN, boolean applies the two
regex tests, object applies JSON.parse. The part/name pair builds the
detail path of the 400 error. -/
def coerceParam (part name : String) (ty : ParamType) (v : ParamValue) :
    Except HTTPError ParamValue :=
  match v with
  | .str s =>
    (match ty with
     | .integer =>
       (match parseIntJS s with
        | some n => .ok (.num (n : Rat))
        | none =>
          .error (coercionError ("data." ++ part ++ "." ++ name ++ " should be an integer")))
     | .number =>
       (match parseFloatJS s with
        | some q => .ok (.num q)
        | none =>
          .error (coercionError ("data." ++ part ++ "." ++ name ++ " should be a number")))
     | .boolean =>
       if validBoolJS s then .ok (.bool (boolValueJS s))
       else
         .error (coercionError ("data." ++ part ++ "." ++ name ++
           " should be a boolean. true|false|1|0|yes|no is accepted as a boolean."))
     | .object =>
       (match jsonParseJS s with
        | some j => .ok (.json j)
        | none =>
          .error (coercionError ("data." ++ part ++ "." ++ name ++
            " should be a JSON object.")))
     | .string => .ok v)
  | _ => .ok v

/-! ## Method registration (lib/router.js) -/

/-- What a method spec binds its handler from: a declarative
x-request-handler chain, a host-language operationId, or nothing. -/
inductive HandlerBinding where
  | requestHandler : HandlerBinding
  | operationId (opId : String) : HandlerBinding
  | noHandler : HandlerBinding

/-- The parts of one verb's spec that _registerMethods inspects. -/
structure MethodSpec where
  binding : HandlerBinding := .noHandler

/-- The parts of a route-tree node value that method registration reads
and writes: the canonical path (for error messages) and the set of verbs
already carrying a handler. -/
structure NodeValue where
  path : String
  methods : List String

/-- Register one verb on a node: error when the verb already has a method
entry; otherwise resolve the handler binding (an unknown operationId is
fatal) and record the verb when a handler was produced. -/
def registerOneMethod (operations : List String) (node : NodeValue)
    (methodName : String) (m : MethodSpec) : Except String NodeValue :=
  if node.methods.contains methodName then
    .error ("Trying to re-define existing method " ++ node.path ++ ":" ++ methodName)
  else
    match m.binding with
    | .requestHandler => .ok { node with methods := node.methods ++ [methodName] }
    | .operationId opId =>
      if operations.contains opId then
        .ok { node with methods := node.methods ++ [methodName] }
      else .error ("No known handler associated with operationId " ++ opId)
    | .noHandler => .ok node

/-- _registerMethods over a pathspec: x-prefixed keys are skipped, the
rest are registered in order (the merged-spec bookkeeping, security and
filter accumulation of the source do not affect the registration
outcome and are elided). -/
def registerMethods (operations : List String) (node : NodeValue) :
    List (String × MethodSpec) → Except String NodeValue
  | [] => .ok node
  | (methodName, m) :: rest =>
    if strStartsWith methodName "x-" then registerMethods operations node rest
    else do
      let node2 ← registerOneMethod operations node methodName m
      registerMethods operations node2 rest

/-! ## Helper lemmas -/

/-- Cloning is idempotent: a cloned request is a fixed point of
cloneRequest. -/
theorem cloneRequest_idem (req : Request) :
    cloneRequest (cloneRequest req) = cloneRequest req := by
  cases req with
  | mk url uri method headers query body params =>
    cases uri <;> cases url <;> cases body <;> rfl

/-- Assignment then lookup on the model finds the assigned value. -/
theorem updModel_lookup (m : List (String × Json)) (k : String) (v : Json) :
    (updModel m k v).lookup k = some v := by
  induction m with
  | nil => simp [updModel]
  | cons p rest ih =>
    obtain ⟨k2, v2⟩ := p
    by_cases h : k2 = k
    · simp [updModel, h]
    · simp [updModel, h, List.lookup, beq_false_of_ne (Ne.symm h)]
      exact ih

/-- The instance on which the self-recursive dispatch of selfLoop throws:
k further child links below inst, all carrying the request r. -/
def chainFrom (r : Request) : Nat → HSInstance → HSInstance
  | 0, inst => inst
  | k + 1, inst => chainFrom r k (.child r inst)

/-- Depth of the chain end. -/
theorem chainFrom_depth (r : Request) (k : Nat) (inst : HSInstance) :
    (chainFrom r k inst).depth = inst.depth + k := by
  induction k generalizing inst with
  | zero => rfl
  | succ k ih =>
    simp only [chainFrom, ih, HSInstance.depth]
    omega

/-- The ancestors of the chain end: k copies of the repeated request above
the original instance's own chain. -/
theorem chainFrom_ancestors (r : Request) (k : Nat) (inst : HSInstance) :
    (chainFrom r (k + 1) inst).ancestors =
      List.replicate k (some r) ++ inst.selfReq :: inst.ancestors := by
  induction k generalizing inst with
  | zero => rfl
  | succ k ih =>
    show (chainFrom r (k + 1) (.child r inst)).ancestors = _
    rw [ih]
    show List.replicate k (some r) ++ some r :: (inst.selfReq :: inst.ancestors) = _
    rw [List.append_cons, ← List.replicate_succ', List.replicate_succ, List.cons_append]

/-- Unfolding of the self-recursive dispatch: with enough fuel, starting
k levels below the cap at a request that is already a clone, the loop
makes k more handler entries and ends in the recursion-depth error
thrown at depth maxDepth + 1. -/
theorem selfLoop_aux (maxDepth : Nat) :
    ∀ (k fuel : Nat) (r : Request) (inst : HSInstance),
      cloneRequest r = r → inst.depth + k = maxDepth + 1 → k < fuel →
      selfLoop maxDepth fuel r inst =
        (k, some
          { status := 500
          , body :=
            { type := "server_error#request_recursion_depth_exceeded"
            , title := "HyperSwitch request recursion depth exceeded."
            , parents := (chainFrom r k inst).ancestors
            , depth := some (maxDepth + 1) } }) := by
  intro k
  induction k with
  | zero =>
    intro fuel r inst hr hd hf
    match fuel, hf with
    | fuel + 1, _ =>
      have hgt : inst.depth > maxDepth := by omega
      have hd2 : inst.depth = maxDepth + 1 := by omega
      simp only [selfLoop, checkMaxRecursionDepth, if_pos hgt, chainFrom]
      rw [hd2]
  | succ k ih =>
    intro fuel r inst hr hd hf
    match fuel, hf with
    | fuel + 1, _ =>
      have hle : ¬ inst.depth > maxDepth := by omega
      simp only [selfLoop, checkMaxRecursionDepth, if_neg hle]
      rw [hr]
      have hrec := ih fuel r (.child r inst) hr (by simp [HSInstance.depth]; omega) (by omega)
      rw [hrec]
      rfl


/-- The ancestors recorded when the self-recursive chain grows from the
root: k repetitions of the re-dispatched request above the root's null
entry. -/
theorem chainFrom_root_ancestors (r : Request) (k : Nat) :
    (chainFrom r k (.child r .root)).ancestors = List.replicate k (some r) ++ [none] := by
  cases k with
  | zero => rfl
  | succ m =>
    rw [chainFrom_ancestors]
    rw [List.replicate_succ', List.append_assoc]
    rfl

/-! ## Claim theorems -/

/-- Claim C1: with a configured recursion limit maxDepth = N (default
10), any dispatch at recursion depth greater than N fails with an HTTP
500 whose body.type is server_error#request_recursion_depth_exceeded,
whose body.depth is the current depth (N+1 at the first failing
dispatch) and whose body.parents lists the chain of parent requests; a
handler that re-dispatches its own URI makes exactly N+1 handler entries
before the error is produced, with body.depth = N+1 and the parents
chain holding the N re-dispatched (cloned) requests above the root's
null entry. -/
theorem c1_recursion_cap :
    (∀ (maxDepth : Nat) (inst : HSInstance), inst.depth > maxDepth →
      checkMaxRecursionDepth maxDepth inst = some
        { status := 500
        , body :=
          { type := "server_error#request_recursion_depth_exceeded"
          , title := "HyperSwitch request recursion depth exceeded."
          , parents := inst.ancestors
          , depth := some inst.depth } })
    ∧ defaultMaxDepth none = 10
    ∧ (∀ (n : Nat) (req : Request),
        selfLoop n (n + 2) req .root =
          (n + 1, some
            { status := 500
            , body :=
              { type := "server_error#request_recursion_depth_exceeded"
              , title := "HyperSwitch request recursion depth exceeded."
              , parents := List.replicate n (some (cloneRequest req)) ++ [none]
              , depth := some (n + 1) } })) := by
  refine ⟨?_, rfl, ?_⟩
  · intro maxDepth inst h
    simp [checkMaxRecursionDepth, h]
  · intro n req
    have hstep : selfLoop n (n + 2) req .root
        = ((selfLoop n (n + 1) (cloneRequest req) (.child (cloneRequest req) .root)).1 + 1,
           (selfLoop n (n + 1) (cloneRequest req) (.child (cloneRequest req) .root)).2) := rfl
    have h := selfLoop_aux n n (n + 1) (cloneRequest req) (.child (cloneRequest req) .root)
      (cloneRequest_idem req) (by simp [HSInstance.depth]; omega) (by omega)
    rw [hstep, h, chainFrom_root_ancestors]

/-- Witness for C1: at maxDepth 1, dispatching on an instance at depth 2
fails with the 500 recursion error carrying depth 2 and the two parent
entries. -/
theorem c1_recursion_cap_witness :
    HSInstance.depth (.child ({} : Request) (.child ({} : Request) .root)) > 1 ∧
    checkMaxRecursionDepth 1 (.child ({} : Request) (.child ({} : Request) .root)) = some
      { status := 500
      , body :=
        { type := "server_error#request_recursion_depth_exceeded"
        , title := "HyperSwitch request recursion depth exceeded."
        , parents := [some ({} : Request), none]
        , depth := some 2 } } :=
  ⟨by decide, c1_recursion_cap.1 1 (.child {} (.child {} .root)) (by decide)⟩

/-- Claim C2: a depth-0 request whose routed params.api is sys or whose
URI's second path segment is sys fails with 403 forbidden#sys without
the handler running (the outcome does not depend on the matched
handler); at any depth greater than 0 the check never fires and the
mounted handler is invoked normally. -/
theorem c2_sys_forbidden :
    (∀ (req : Request) (m : RouteMatch),
      (m.params.lookup "api" = some "sys"
        ∨ ∃ p, req.uri = some p ∧ 1 < p.length ∧ p[1]? = some "sys") →
      routeAndInvoke 0 req (some m) = .error
        { status := 403
        , body :=
          { type := "forbidden#sys"
          , title := "Access to the /sys hierarchy is restricted to system users." } })
    ∧ (∀ (depth : Nat) (req : Request) (m : RouteMatch), 0 < depth →
        routeAndInvoke depth req (some m) =
          .ok (m.handler { req with params := some m.params })) := by
  constructor
  · intro req m h
    have hsys : isSysRequest { req with params := some m.params } = true := by
      rcases h with h | ⟨p, hp, hlen, hseg⟩
      · simp [isSysRequest, h]
      · simp [isSysRequest, hp, hlen, hseg]
    simp [routeAndInvoke, checkInternalApiRequest, hsys]
  · intro depth req m h
    have hd : (depth == 0) = false := by simp; omega
    simp [routeAndInvoke, checkInternalApiRequest, hd]

/-- Witness for C2: a depth-0 request routed with params.api = sys is
rejected with 403 forbidden#sys, and the same match dispatched at depth
1 invokes the handler. -/
theorem c2_sys_forbidden_witness :
    routeAndInvoke 0 { uri := some ["v1", "sys", "t"] }
        (some { params := [("api", "sys")], handler := fun _ => { status := 200, body := .null } })
      = .error
        { status := 403
        , body :=
          { type := "forbidden#sys"
          , title := "Access to the /sys hierarchy is restricted to system users." } }
    ∧ routeAndInvoke 1 { uri := some ["v1", "sys", "t"] }
        (some { params := [("api", "sys")], handler := fun _ => { status := 200, body := .null } })
      = .ok { status := 200, body := .null } :=
  ⟨c2_sys_forbidden.1 _ _ (Or.inl (by decide)),
   c2_sys_forbidden.2 1 _ _ (by decide)⟩

/-- Claim C3: every dispatched request is processed through a fresh
shallow copy of the caller's request with defaults method='get',
headers, query and params empty, body null, uri taken from uri||url
(and url cleared); the clone lives at a fresh address, so overwriting
any top-level field of the clone during handling leaves the caller's
original request record unchanged. -/
theorem c3_request_clone_isolation :
    (∀ req : Request,
      (cloneRequest req).method = some (req.method.getD "get")
      ∧ (cloneRequest req).headers = some (req.headers.getD [])
      ∧ (cloneRequest req).query = some (req.query.getD [])
      ∧ (cloneRequest req).params = some (req.params.getD [])
      ∧ (cloneRequest req).body = (match req.body with
          | .undefined => JsOpt.null
          | b => b)
      ∧ (cloneRequest req).uri = (req.uri <|> req.url)
      ∧ (cloneRequest req).url = none)
    ∧ (∀ (m : Mem) (a : Nat), a < m.next →
        (cloneRequestAt m a).2 ≠ a
        ∧ readReq (cloneRequestAt m a).1 a = readReq m a
        ∧ readReq (cloneRequestAt m a).1 (cloneRequestAt m a).2
            = cloneRequest (readReq m a)
        ∧ ∀ r : Request,
            readReq (writeReq (cloneRequestAt m a).1 (cloneRequestAt m a).2 r) a
              = readReq m a) := by
  constructor
  · intro req
    exact ⟨rfl, rfl, rfl, rfl, rfl, rfl, rfl⟩
  · intro m a ha
    have hne : a ≠ m.next := Nat.ne_of_lt ha
    refine ⟨Ne.symm hne, ?_, ?_, ?_⟩
    · simp [cloneRequestAt, allocReq, readReq, hne]
    · simp [cloneRequestAt, allocReq, readReq]
    · intro r
      simp [cloneRequestAt, allocReq, readReq, writeReq, hne]

/-- Witness for C3: cloning the request at address 0 of a one-object
heap leaves the original readable unchanged even after the clone is
overwritten. -/
theorem c3_request_clone_isolation_witness :
    (0 : Nat) < (1 : Nat) ∧
    ((cloneRequestAt { heap := fun _ => { method := some "post" }, next := 1 } 0).2 ≠ 0
      ∧ readReq (cloneRequestAt { heap := fun _ => { method := some "post" }, next := 1 } 0).1 0
          = readReq { heap := fun _ => { method := some "post" }, next := 1 } 0
      ∧ readReq (cloneRequestAt { heap := fun _ => { method := some "post" }, next := 1 } 0).1
            (cloneRequestAt { heap := fun _ => { method := some "post" }, next := 1 } 0).2
          = cloneRequest (readReq { heap := fun _ => { method := some "post" }, next := 1 } 0)
      ∧ ∀ r : Request,
          readReq (writeReq (cloneRequestAt { heap := fun _ => { method := some "post" }, next := 1 } 0).1
              (cloneRequestAt { heap := fun _ => { method := some "post" }, next := 1 } 0).2 r) 0
            = readReq { heap := fun _ => { method := some "post" }, next := 1 } 0) :=
  ⟨Nat.zero_lt_one,
   c3_request_clone_isolation.2 { heap := fun _ => { method := some "post" }, next := 1 } 0
     Nat.zero_lt_one⟩

/-- Claim C10: a call to the public request(req, options) with a defined
req.method mutates the caller's own request object in place, replacing
req.method by its lower-cased form before the shallow clone is taken:
the change is observable at the caller's address, and the clone (a
distinct address) is built from the already-lowercased record. -/
theorem c10_method_lowercase_mutation :
    ∀ (m : Mem) (a : Nat) (verb : String), a < m.next →
      (readReq m a).method = some verb →
      readReq (requestEntry m a).1 a = { readReq m a with method := some verb.toLower }
      ∧ (requestEntry m a).2 ≠ a
      ∧ readReq (requestEntry m a).1 (requestEntry m a).2
          = cloneRequest { readReq m a with method := some verb.toLower } := by
  intro m a verb ha hm
  have hne : a ≠ m.next := Nat.ne_of_lt ha
  simp only [readReq] at hm
  simp only [requestEntry, readReq, hm]
  refine ⟨?_, ?_, ?_⟩
  · simp [cloneRequestAt, allocReq, writeReq, readReq, hne]
  · simp only [cloneRequestAt, allocReq, writeReq]
    exact Ne.symm hne
  · simp [cloneRequestAt, allocReq, writeReq, readReq, hne]

/-- Witness for C10: dispatching the request stored at address 0 with
method GET lowercases the method on the caller's object itself. -/
theorem c10_method_lowercase_mutation_witness :
    (0 : Nat) < (1 : Nat)
    ∧ (readReq { heap := fun _ => { method := some "GET" }, next := 1 } 0).method = some "GET"
    ∧ readReq (requestEntry { heap := fun _ => { method := some "GET" }, next := 1 } 0).1 0
        = { readReq { heap := fun _ => { method := some "GET" }, next := 1 } 0 with
            method := some ("GET").toLower }
    ∧ (requestEntry { heap := fun _ => { method := some "GET" }, next := 1 } 0).2 ≠ 0
    ∧ readReq (requestEntry { heap := fun _ => { method := some "GET" }, next := 1 } 0).1
          (requestEntry { heap := fun _ => { method := some "GET" }, next := 1 } 0).2
        = cloneRequest { readReq { heap := fun _ => { method := some "GET" }, next := 1 } 0 with
            method := some ("GET").toLower } :=
  ⟨Nat.zero_lt_one, rfl,
   (c10_method_lowercase_mutation { heap := fun _ => { method := some "GET" }, next := 1 } 0 "GET"
     Nat.zero_lt_one rfl).1,
   (c10_method_lowercase_mutation { heap := fun _ => { method := some "GET" }, next := 1 } 0 "GET"
     Nat.zero_lt_one rfl).2.1,
   (c10_method_lowercase_mutation { heap := fun _ => { method := some "GET" }, next := 1 } 0 "GET"
     Nat.zero_lt_one rfl).2.2⟩

/-- Claim C9: registering a verb on a node whose value already holds a
method entry for that verb fails with an error message starting with
"Trying to re-define existing method". The check consults only the
node's accumulated methods, so it fires whether the second definition
comes from the same spec or from another subspec mounted on the same
node; the hypothesis on bindings rules out the unrelated
unknown-operationId failure for the other entries of the pathspec. -/
theorem c9_method_redefinition :
    ∀ (operations : List String) (node : NodeValue)
      (pathspec : List (String × MethodSpec)) (v : String),
      (∀ p ∈ pathspec, ∀ opId, p.2.binding = .operationId opId → opId ∈ operations) →
      v ∈ pathspec.map Prod.fst →
      strStartsWith v "x-" = false →
      v ∈ node.methods →
      ∃ suffix, registerMethods operations node pathspec =
        .error ("Trying to re-define existing method" ++ suffix) := by
  intro operations node pathspec
  induction pathspec generalizing node with
  | nil => intro v _ hmem _ _; simp at hmem
  | cons p rest ih =>
    intro v hvalid hmem hx hcontains
    obtain ⟨methodName, mspec⟩ := p
    by_cases hxm : strStartsWith methodName "x-" = true
    · have hvrest : v ∈ rest.map Prod.fst := by
        rcases List.mem_cons.mp hmem with heq | hmem2
        · exfalso
          rw [heq] at hx
          rw [hxm] at hx
          exact Bool.noConfusion hx
        · exact hmem2
      have := ih node v (fun q hq => hvalid q (List.mem_cons_of_mem _ hq)) hvrest hx hcontains
      simpa [registerMethods, hxm] using this
    · simp only [Bool.not_eq_true] at hxm
      by_cases hdup : methodName ∈ node.methods
      · refine ⟨" " ++ node.path ++ ":" ++ methodName, ?_⟩
        have hmsg : "Trying to re-define existing method " ++ node.path ++ ":" ++ methodName
            = "Trying to re-define existing method" ++ (" " ++ node.path ++ ":" ++ methodName) := by
          rw [← String.append_assoc, ← String.append_assoc]
          rfl
        have hdupb : node.methods.contains methodName = true := by simpa using hdup
        simp only [registerMethods, hxm, Bool.false_eq_true, if_false, registerOneMethod,
          hdupb, if_pos, hmsg]
        rfl
      · have hvne : v ≠ methodName := by
          intro heq
          rw [heq] at hcontains
          exact hdup hcontains
        have hvrest : v ∈ rest.map Prod.fst := by
          rcases List.mem_cons.mp hmem with heq | hmem2
          · exact absurd heq hvne
          · exact hmem2
        have hstep : ∃ node2 : NodeValue,
            registerOneMethod operations node methodName mspec = .ok node2
            ∧ v ∈ node2.methods := by
          cases hb : mspec.binding with
          | requestHandler =>
            refine ⟨{ node with methods := node.methods ++ [methodName] }, ?_, ?_⟩
            · simp [registerOneMethod, hdup, hb]
            · simp [hcontains]
          | operationId opId =>
            have hop := hvalid (methodName, mspec) (List.mem_cons_self _ _) opId hb
            refine ⟨{ node with methods := node.methods ++ [methodName] }, ?_, ?_⟩
            · simp [registerOneMethod, hdup, hb, hop]
            · simp [hcontains]
          | noHandler =>
            exact ⟨node, by simp [registerOneMethod, hdup, hb], hcontains⟩
        obtain ⟨node2, hreg, hcont2⟩ := hstep
        have := ih node2 v (fun q hq => hvalid q (List.mem_cons_of_mem _ hq)) hvrest hx hcont2
        simpa [registerMethods, hxm, hreg, Except.bind] using this

/-- Witness for C9: a pathspec re-declaring get on a node that already
has a get handler is rejected with the re-definition message. -/
theorem c9_method_redefinition_witness :
    "get" ∈ ([("get", ({ binding := .requestHandler } : MethodSpec))].map Prod.fst)
    ∧ strStartsWith "get" "x-" = false
    ∧ "get" ∈ ["get"]
    ∧ ∃ suffix, registerMethods [] { path := "/test", methods := ["get"] }
        [("get", { binding := .requestHandler })] =
        .error ("Trying to re-define existing method" ++ suffix) := by
  refine ⟨by simp, by decide, by simp, ?_⟩
  exact c9_method_redefinition [] { path := "/test", methods := ["get"] }
    [("get", { binding := .requestHandler })] "get"
    (by intro p hp opId hb; simp at hp; rw [hp] at hb; exact absurd hb (by simp))
    (by simp) (by decide) (by simp)

/-- Claim C8 (divergence exhibit): the coercion routine behaves as
claimed on the claim's own examples (True coerces to the boolean true,
27.5 coerces to the number 27.5, not_a_number fails with 400 and detail
data.query.n should be a number; integers, hex integers, exponent
floats and JSON objects, floats and escaped strings parse; yesno is
rejected by the end-anchored yes$ value alternative), but the boolean
acceptance test is NOT exactly true|false|1|0|yes|no case-insensitively:
the generated regex ^true|false|1|0|yes|no$ leaves every alternative
except the first and last unanchored, so the string 102, which is none
of the six literals, is accepted and coerced to true instead of
producing the documented 400. -/
theorem c8_coercion_behavior :
    coerceParam "query" "flag" .boolean (.str "True") = .ok (.bool true)
    ∧ coerceParam "query" "n" .number (.str "27.5") = .ok (.num ((55 : Rat) / 2))
    ∧ coerceParam "query" "n" .number (.str "1e3") = .ok (.num (1000 : Rat))
    ∧ coerceParam "query" "n" .number (.str "not_a_number")
        = .error (coercionError "data.query.n should be a number")
    ∧ coerceParam "query" "k" .integer (.str "27") = .ok (.num (27 : Rat))
    ∧ coerceParam "query" "k" .integer (.str "0x10") = .ok (.num (16 : Rat))
    ∧ coerceParam "query" "o" .object (.str "\x7b\"a\":1\x7d")
        = .ok (.json (.obj [("a", .num (1 : Rat))]))
    ∧ coerceParam "query" "o" .object (.str "27.5") = .ok (.json (.num ((55 : Rat) / 2)))
    ∧ coerceParam "query" "o" .object (.str "\"a\\nb\"") = .ok (.json (.str "a\nb"))
    ∧ coerceParam "query" "flag" .boolean (.str "yesno") = .ok (.bool false)
    ∧ coerceParam "query" "flag" .boolean (.str "102") = .ok (.bool true)
    ∧ strToLower "102" ∉ ["true", "false", "1", "0", "yes", "no"] := by
  have hv275 : jsonNumValue false ['2', '7'] ['5'] 0 = (55 : Rat) / 2 := by
    have h4 : natOfDigits ['2', '7'] = 27 := by decide
    have h5 : natOfDigits ['5'] = 5 := by decide
    simp only [jsonNumValue, h4, h5, List.length_cons, List.length_nil]
    norm_num
  refine ⟨?_, ?_, ?_, ?_, ?_, ?_, ?_, ?_, ?_, ?_, ?_, ?_⟩
  · rfl
  · have hq : parseFloatJS "27.5" = some (jsonNumValue false ['2', '7'] ['5'] 0) := rfl
    simp only [coerceParam, hq, hv275]
  · have hq : parseFloatJS "1e3" = some (jsonNumValue false ['1'] [] 3) := rfl
    have hv : jsonNumValue false ['1'] [] 3 = (1000 : Rat) := by
      have h1 : natOfDigits ['1'] = 1 := by decide
      have h0 : natOfDigits ([] : List Char) = 0 := by decide
      have ht : Int.toNat 3 = 3 := rfl
      simp only [jsonNumValue, h1, h0, List.length_nil, ht]
      norm_num
    simp only [coerceParam, hq, hv]
  · have hq : parseFloatJS "not_a_number" = none := by decide
    simp only [coerceParam, hq]
    rfl
  · have hq : parseIntJS "27" = some 27 := by decide
    have hc : ((27 : Int) : Rat) = 27 := by norm_num
    simp only [coerceParam, hq, hc]
  · have hq : parseIntJS "0x10" = some 16 := by decide
    have hc : ((16 : Int) : Rat) = 16 := by norm_num
    simp only [coerceParam, hq, hc]
  · have hq : jsonParseJS "\x7b\"a\":1\x7d"
        = some (.obj [("a", .num (jsonNumValue false ['1'] [] 0))]) := rfl
    have hv : jsonNumValue false ['1'] [] 0 = (1 : Rat) := by
      have h1 : natOfDigits ['1'] = 1 := by decide
      have h0 : natOfDigits ([] : List Char) = 0 := by decide
      simp only [jsonNumValue, h1, h0, List.length_nil]
      norm_num
    simp only [coerceParam, hq, hv]
  · have hq : jsonParseJS "27.5" = some (.num (jsonNumValue false ['2', '7'] ['5'] 0)) := rfl
    simp only [coerceParam, hq, hv275]
  · rfl
  · rfl
  · rfl
  · decide

/-- A step that validates successfully satisfies all four structural
conditions checked by validateStep. -/
theorem validateStep_ok_conditions (step : StepConf) (h : validateStep step = .ok ()) :
    countReturnsInStep step true ≤ 1
    ∧ (∀ p ∈ step, p.2.request = true ∨ p.2.ret = true)
    ∧ (∀ p ∈ step, p.2.return_if.isSome = true → p.2.request = true)
    ∧ (∀ p ∈ step, p.2.catchDef.isSome = true → p.2.request = true) := by
  unfold validateStep at h
  split_ifs at h with h1 h2 h3 h4
  simp only [not_lt] at h1
  simp only [Bool.not_eq_true', Bool.not_eq_false] at h2
  refine ⟨h1, ?_, ?_, ?_⟩
  · intro p hp
    have := List.all_eq_true.mp h2 p hp
    exact Or.imp (fun a => a) (fun a => a) (Bool.or_eq_true_iff.mp this)
  · intro p hp hri
    by_contra hreq
    simp only [Bool.not_eq_true] at hreq
    exact h3 (List.any_eq_true.mpr ⟨p, hp, by simp [hri, hreq]⟩)
  · intro p hp hcd
    by_contra hreq
    simp only [Bool.not_eq_true] at hreq
    exact h4 (List.any_eq_true.mpr ⟨p, hp, by simp [hcd, hreq]⟩)

/-- Claim C5: createHandler (through validateSpec) rejects each
malformed chain: a non-array spec; a step with more than one returning
stanza, with the message prefix Invalid spec. Returning requests cannot
be parallel.; a stanza with neither request nor return; a return_if or
catch without a matching request; a multi-stanza final step without an
explicit return. A final single-stanza step without a return survives
validation with return: true implied on that stanza. -/
theorem c5_spec_validation :
    validateSpec .notArray =
      .error "Invalid spec. It must be an array of request block definitions. Spec: undefined"
    ∧ (∀ step : StepConf, countReturnsInStep step true > 1 →
        validateStep step =
          .error ("Invalid spec. Returning requests cannot be parallel. Spec: " ++ stepDesc step))
    ∧ (∀ (step : StepConf) (p : String × Stanza), p ∈ step →
        p.2.request = false → p.2.ret = false →
        ∃ msg, validateStep step = .error msg)
    ∧ (∀ (step : StepConf) (p : String × Stanza), p ∈ step →
        p.2.return_if.isSome = true → p.2.request = false →
        ∃ msg, validateStep step = .error msg)
    ∧ (∀ (step : StepConf) (p : String × Stanza), p ∈ step →
        p.2.catchDef.isSome = true → p.2.request = false →
        ∃ msg, validateStep step = .error msg)
    ∧ (∀ (steps : List StepConf) (last : StepConf), steps.getLast? = some last →
        1 < last.length → countReturnsInStep last false = 0 →
        ∃ msg, validateSpec (.arr steps) = .error msg)
    ∧ (∀ (steps out : List StepConf) (n : String) (st : Stanza),
        validateSpec (.arr steps) = .ok out → steps.getLast? = some [(n, st)] →
        out.getLast? = some [(n, { st with ret := true })]) := by
  refine ⟨rfl, ?_, ?_, ?_, ?_, ?_, ?_⟩
  · intro step h
    unfold validateStep
    rw [if_pos h]
  · intro step p hp hreq hret
    match hv : validateStep step with
    | .error m => exact ⟨m, rfl⟩
    | .ok u =>
      cases u
      rcases (validateStep_ok_conditions step hv).2.1 p hp with h | h
      · rw [hreq] at h; exact Bool.noConfusion h
      · rw [hret] at h; exact Bool.noConfusion h
  · intro step p hp hri hreq
    match hv : validateStep step with
    | .error m => exact ⟨m, rfl⟩
    | .ok u =>
      cases u
      have := (validateStep_ok_conditions step hv).2.2.1 p hp hri
      rw [hreq] at this; exact Bool.noConfusion this
  · intro step p hp hcd hreq
    match hv : validateStep step with
    | .error m => exact ⟨m, rfl⟩
    | .ok u =>
      cases u
      have := (validateStep_ok_conditions step hv).2.2.2 p hp hcd
      rw [hreq] at this; exact Bool.noConfusion this
  · intro steps last hlast hlen hcount
    cases hva : validateAll steps with
    | error e => exact ⟨e, by simp only [validateSpec, hva]; rfl⟩
    | ok u =>
      cases u
      rcases last with _ | ⟨a, _ | ⟨b, rest⟩⟩
      · simp at hlen
      · simp at hlen
      · refine ⟨"Invalid spec. Need a return if the last step is parallel.", ?_⟩
        simp only [validateSpec, hva, hlast, hcount]
        rfl
  · intro steps out n st h hlast
    cases hva : validateAll steps with
    | error e =>
      rw [show validateSpec (.arr steps)
          = Except.error e from by simp only [validateSpec, hva]; rfl] at h
      exact Except.noConfusion h
    | ok u =>
      cases u
      cases hr : st.ret with
      | false =>
        have hcount : countReturnsInStep [(n, st)] false = 0 := by
          simp [countReturnsInStep, hr]
        rw [show validateSpec (.arr steps)
            = Except.ok (steps.dropLast ++ [[(n, { st with ret := true })]]) from by
          simp only [validateSpec, hva, hlast, hcount]; rfl] at h
        injection h with h2
        rw [← h2, List.getLast?_concat]
      | true =>
        have hcount : countReturnsInStep [(n, st)] false = 1 := by
          simp [countReturnsInStep, hr]
        rw [show validateSpec (.arr steps) = Except.ok steps from by
          simp only [validateSpec, hva, hlast, hcount]; rfl] at h
        injection h with h2
        rw [← h2, hlast]
        cases st
        simp only at hr
        rw [hr]

/-- Witness for C5: each malformed-chain shape is rejected on a concrete
spec, and a single-stanza final step gets return: true implied. -/
theorem c5_spec_validation_witness :
    countReturnsInStep [("a", ({ ret := true } : Stanza)),
        ("b", ({ request := true, return_if := some [] } : Stanza))] true > 1
    ∧ validateStep [("a", { ret := true }), ("b", { request := true, return_if := some [] })]
      = .error ("Invalid spec. Returning requests cannot be parallel. Spec: "
          ++ stepDesc [("a", { ret := true }), ("b", { request := true, return_if := some [] })])
    ∧ (∃ msg, validateStep [("a", ({} : Stanza))] = .error msg)
    ∧ (∃ msg, validateStep [("a", { ret := true, return_if := some [] })] = .error msg)
    ∧ (∃ msg, validateStep [("a", { ret := true, catchDef := some [] })] = .error msg)
    ∧ (∃ msg, validateSpec (.arr [[("a", { request := true }), ("b", { request := true })]])
        = .error msg)
    ∧ validateSpec (.arr [[("a", { request := true })]])
        = .ok [[("a", { request := true, ret := true })]]
    ∧ ([[("a", { request := true, ret := true })]] : List StepConf).getLast?
        = some [("a", { request := true, ret := true })] :=
  ⟨by decide,
   c5_spec_validation.2.1 _ (by decide),
   c5_spec_validation.2.2.1 _ ("a", {}) (List.mem_cons_self _ _) rfl rfl,
   c5_spec_validation.2.2.2.1 _ ("a", { ret := true, return_if := some [] })
     (List.mem_cons_self _ _) rfl rfl,
   c5_spec_validation.2.2.2.2.1 _ ("a", { ret := true, catchDef := some [] })
     (List.mem_cons_self _ _) rfl rfl,
   c5_spec_validation.2.2.2.2.2.1 _ [("a", { request := true }), ("b", { request := true })]
     rfl (by decide) (by decide),
   rfl,
   c5_spec_validation.2.2.2.2.2.2 [[("a", { request := true })]]
     [[("a", { request := true, ret := true })]] "a" { request := true } rfl rfl⟩

/-- Claim C7: when the sub-request of a request stanza rejects, a
matching catch predicate stores the error in ctx.model under the
stanza's request name and execution continues with the error swallowed;
a non-matching catch tags the error with requestName = the stanza's
name and re-throws it, and a throwing step aborts all subsequent steps
(the chain's result is that error whatever steps follow). -/
theorem c7_catch_rethrow :
    (∀ (env : String → Except Json Json) (cs : CompiledStanza) (ctx : Ctx) (e : Json)
        (cp : Json → Bool),
      cs.hasRequest = true → cs.catchPred = some cp → env cs.name = .error e →
      cp e = true →
      runStanzaRequest env cs ctx =
        .ok { model := updModel ctx.model cs.name e
            , doReturn := ctx.doReturn <|> applyShould cs e }
      ∧ (updModel ctx.model cs.name e).lookup cs.name = some e)
    ∧ (∀ (env : String → Except Json Json) (cs : CompiledStanza) (ctx : Ctx) (e : Json)
        (cp : Json → Bool),
      cs.hasRequest = true → cs.catchPred = some cp → env cs.name = .error e →
      cp e = false →
      runStanzaRequest env cs ctx =
        .error { err := e, requestName := cs.name
               , ctx := { ctx with model := updModel ctx.model cs.name e } })
    ∧ (∀ (env : String → Except Json Json) (st : List CompiledStanza)
        (rest : List (List CompiledStanza)) (ctx : Ctx) (er : StanzaErr),
      runStepStanzas env st ctx = .error er →
      runSteps env (st :: rest) ctx = .error er) := by
  refine ⟨?_, ?_, ?_⟩
  · intro env cs ctx e cp hreq hcp henv hmatch
    constructor
    · simp only [runStanzaRequest, hreq, hcp, henv, hmatch, if_true]
    · exact updModel_lookup ctx.model cs.name e
  · intro env cs ctx e cp hreq hcp henv hmatch
    simp only [runStanzaRequest, hreq, hcp, henv, hmatch, if_false, Bool.false_eq_true]
    rfl
  · intro env st rest ctx er h
    cases rest with
    | nil => simp only [runSteps, h, Except.map]
    | cons r rs => simp only [runSteps, h]; rfl

/-- Witness for C7: a stanza whose catch matches swallows and stores a
rejected response; one whose catch does not match re-throws it tagged,
and the tagged throw is the result of the whole chain regardless of a
following step. -/
theorem c7_catch_rethrow_witness :
    runStanzaRequest (fun _ => .error (.num 7))
        { name := "a", hasRequest := true, catchPred := some (fun _ => true)
        , retKind := .noReturn } { model := [], doReturn := none } =
      .ok { model := updModel [] "a" (.num 7)
          , doReturn := Option.none <|> applyShould
              { name := "a", hasRequest := true, catchPred := some (fun _ => true)
              , retKind := .noReturn } (.num 7) }
    ∧ (updModel [] "a" (.num 7)).lookup "a" = some (.num 7)
    ∧ runStanzaRequest (fun _ => .error (.num 7))
        { name := "a", hasRequest := true, catchPred := some (fun _ => false)
        , retKind := .noReturn } { model := [], doReturn := none } =
      .error { err := .num 7, requestName := "a"
             , ctx := { model := updModel [] "a" (.num 7), doReturn := none } }
    ∧ runSteps (fun _ => .error (.num 7))
        [[{ name := "a", hasRequest := true, catchPred := some (fun _ => false)
          , retKind := .noReturn }], []] { model := [], doReturn := none } =
      .error { err := .num 7, requestName := "a"
             , ctx := { model := updModel [] "a" (.num 7), doReturn := none } } := by
  refine ⟨?_, ?_, ?_, ?_⟩
  · exact (c7_catch_rethrow.1 (fun _ => .error (.num 7))
      { name := "a", hasRequest := true, catchPred := some (fun _ => true)
      , retKind := .noReturn } { model := [], doReturn := none } (.num 7) (fun _ => true)
      rfl rfl rfl rfl).1
  · exact (c7_catch_rethrow.1 (fun _ => .error (.num 7))
      { name := "a", hasRequest := true, catchPred := some (fun _ => true)
      , retKind := .noReturn } { model := [], doReturn := none } (.num 7) (fun _ => true)
      rfl rfl rfl rfl).2
  · exact c7_catch_rethrow.2.1 (fun _ => .error (.num 7))
      { name := "a", hasRequest := true, catchPred := some (fun _ => false)
      , retKind := .noReturn } { model := [], doReturn := none } (.num 7) (fun _ => false)
      rfl rfl rfl rfl
  · exact c7_catch_rethrow.2.2 (fun _ => .error (.num 7))
      [{ name := "a", hasRequest := true, catchPred := some (fun _ => false)
       , retKind := .noReturn }] [[]] { model := [], doReturn := none }
      { err := .num 7, requestName := "a"
      , ctx := { model := updModel [] "a" (.num 7), doReturn := none } } rfl

/-- Claim C4: the first step whose stanza sets _doReturn (by return or a
true return_if) terminates execution — no later step runs and the
result is ctx.model[_doReturn]; a stanza carrying neither return nor
return_if never changes an already-set _doReturn (with validation
allowing at most one returning stanza per step, a set _doReturn is
therefore never overridden); in a stanza carrying both, return_if takes
precedence over the unconditional return (the compiled stanza returns
only when the predicate holds); and the last step always yields
ctx.model[_doReturn]. -/
theorem c4_do_return_semantics :
    (∀ (env : String → Except Json Json) (st : List CompiledStanza)
        (rest : List (List CompiledStanza)) (ctx ctx2 : Ctx) (r : String),
      runStepStanzas env st ctx = .ok ctx2 → ctx2.doReturn = some r →
      runSteps env (st :: rest) ctx = .ok (ctx2.model.lookup r))
    ∧ (∀ (env : String → Except Json Json) (cs : CompiledStanza) (ctx ctx2 : Ctx),
        cs.retKind = .noReturn → runStanzaRequest env cs ctx = .ok ctx2 →
        ctx2.doReturn = ctx.doReturn)
    ∧ (∀ (name : String) (s : Stanza) (cd : CatchDef) (p : Json → Bool),
        s.request = true → s.ret = true → s.return_if = some cd → s.catchDef = none →
        compileCatchFunction cd = .ok p →
        compileStanza name s =
          .ok { name := name, hasRequest := true, catchPred := none
              , retKind := .conditional p }
        ∧ ∀ (env : String → Except Json Json) (res : Json)
            (model : List (String × Json)),
          env name = .ok res →
          runStanzaRequest env
              { name := name, hasRequest := true, catchPred := none
              , retKind := .conditional p } { model := model, doReturn := none } =
            .ok { model := updModel model name res
                , doReturn := if p res then some name else none })
    ∧ (∀ (env : String → Except Json Json) (st : List CompiledStanza) (ctx ctx2 : Ctx),
        runStepStanzas env st ctx = .ok ctx2 →
        runSteps env [st] ctx = .ok (lookupReturn ctx2)) := by
  refine ⟨?_, ?_, ?_, ?_⟩
  · intro env st rest ctx ctx2 r h hdr
    cases rest with
    | nil => simp only [runSteps, h, Except.map, lookupReturn, hdr]
    | cons q qs =>
      have hstep : runSteps env (st :: q :: qs) ctx =
          (if ctx2.doReturn.isSome then Except.ok (lookupReturn ctx2)
           else runSteps env (q :: qs) ctx2) := by
        simp only [runSteps, h]
        rfl
      rw [hstep]
      simp [lookupReturn, hdr]
  · intro env cs ctx ctx2 hrk h
    have horelse : ∀ o : Option String, (o <|> (none : Option String)) = o := by
      intro o; cases o <;> rfl
    by_cases hreq : cs.hasRequest = true
    · cases hcp : cs.catchPred with
      | some cp =>
        cases henv : env cs.name with
        | ok res =>
          simp only [runStanzaRequest, hreq, hcp, henv, if_true] at h
          injection h with h2
          rw [← h2]
          simp [applyShould, hrk, horelse]
        | error e =>
          by_cases hm : cp e = true
          · simp only [runStanzaRequest, hreq, hcp, henv, hm, if_true] at h
            injection h with h2
            rw [← h2]
            simp [applyShould, hrk, horelse]
          · simp only [Bool.not_eq_true] at hm
            simp only [runStanzaRequest, hreq, hcp, henv, hm, if_true,
              Bool.false_eq_true, if_false] at h
            exact Except.noConfusion h
      | none =>
        cases henv : env cs.name with
        | ok res =>
          simp only [runStanzaRequest, hreq, hcp, hrk, henv, if_true] at h
          injection h with h2
          rw [← h2]
          simp [applyShould, hrk, horelse]
        | error e =>
          simp only [runStanzaRequest, hreq, hcp, hrk, henv, if_true] at h
          exact Except.noConfusion h
    · simp only [Bool.not_eq_true] at hreq
      simp only [runStanzaRequest, hreq, Bool.false_eq_true, if_false] at h
      injection h with h2
      rw [← h2]
  · intro name s cd p hreq hret hri hcd hcc
    constructor
    · simp only [compileStanza, hreq, hcd, hri, hcc, if_true]
      rfl
    · intro env res model henv
      simp only [runStanzaRequest, henv, if_true]
      rfl
  · intro env st ctx ctx2 h
    simp only [runSteps, h, Except.map]

/-- Witness for C4: a step that sets _doReturn makes the chain return
ctx.model[_doReturn] regardless of the steps that follow; a
non-returning stanza leaves a set _doReturn unchanged; a stanza with
both return and return_if returns only per the predicate; the last step
yields ctx.model[_doReturn]. -/
theorem c4_do_return_semantics_witness :
    runSteps (fun _ => Except.ok (Json.num 1))
        ([{ name := "a", hasRequest := true, catchPred := none
          , retKind := .unconditional }] :: [[]])
        { model := [], doReturn := none } =
      .ok (List.lookup "a" (updModel [] "a" (.num 1)))
    ∧ ({ model := updModel [] "b" (.num 1), doReturn := some "z" } : Ctx).doReturn
        = ({ model := [], doReturn := some "z" } : Ctx).doReturn
    ∧ compileStanza "c"
        { request := true, ret := true
        , return_if := some [("status", .one (.num 404))], catchDef := none } =
      .ok { name := "c", hasRequest := true, catchPred := none
          , retKind := .conditional (fun res => statusEqNum res 404) }
    ∧ runStanzaRequest (fun _ => Except.ok (Json.obj [("status", Json.num 200)]))
        { name := "c", hasRequest := true, catchPred := none
        , retKind := .conditional (fun res => statusEqNum res 404) }
        { model := [], doReturn := none } =
      .ok { model := updModel [] "c" (Json.obj [("status", Json.num 200)])
          , doReturn := none }
    ∧ runSteps (fun _ => Except.ok (Json.num 1))
        [[{ name := "a", hasRequest := true, catchPred := none
          , retKind := .unconditional }]]
        { model := [], doReturn := none } =
      .ok (lookupReturn { model := updModel [] "a" (.num 1), doReturn := some "a" }) := by
  refine ⟨?_, ?_, ?_, ?_, ?_⟩
  · exact c4_do_return_semantics.1 (fun _ => Except.ok (Json.num 1))
      [{ name := "a", hasRequest := true, catchPred := none, retKind := .unconditional }]
      [[]] { model := [], doReturn := none }
      { model := updModel [] "a" (.num 1), doReturn := some "a" } "a" rfl rfl
  · exact c4_do_return_semantics.2.1 (fun _ => Except.ok (Json.num 1))
      { name := "b", hasRequest := true, catchPred := none, retKind := .noReturn }
      { model := [], doReturn := some "z" }
      { model := updModel [] "b" (.num 1), doReturn := some "z" } rfl rfl
  · exact (c4_do_return_semantics.2.2.1 "c"
      { request := true, ret := true
      , return_if := some [("status", .one (.num 404))], catchDef := none }
      [("status", .one (.num 404))] (fun res => statusEqNum res 404)
      rfl rfl rfl rfl rfl).1
  · exact (c4_do_return_semantics.2.2.1 "c"
      { request := true, ret := true
      , return_if := some [("status", .one (.num 404))], catchDef := none }
      [("status", .one (.num 404))] (fun res => statusEqNum res 404)
      rfl rfl rfl rfl rfl).2
      (fun _ => Except.ok (Json.obj [("status", Json.num 200)]))
      (Json.obj [("status", Json.num 200)]) [] rfl
  · exact c4_do_return_semantics.2.2.2 (fun _ => Except.ok (Json.num 1))
      [{ name := "a", hasRequest := true, catchPred := none, retKind := .unconditional }]
      { model := [], doReturn := none }
      { model := updModel [] "a" (.num 1), doReturn := some "a" } rfl

/-- The predicate compiled for a single field/value pair holds exactly
when the pair matches per the specification's description. -/
theorem createCondition_ok_iff (f : String) (v : Json) (q : Json → Bool) (res : Json)
    (hq : createCondition f v = .ok q) : q res = true ↔ atomMatchesSpec f v res := by
  by_cases hf : f = "status"
  · subst hf
    simp only [createCondition, beq_self_eq_true, if_true] at hq
    by_cases h1 : isAllDigits (jsToString v) = true
    · rw [if_pos h1] at hq
      injection hq with hq2
      rw [← hq2]
      simp [atomMatchesSpec, h1]
    · rw [if_neg h1] at hq
      by_cases h2 : isDigitsXPattern (jsToString v) = true
      · rw [if_pos h2] at hq
        injection hq with hq2
        rw [← hq2]
        simp only [Bool.not_eq_true] at h1
        simp [atomMatchesSpec, h1, h2]
      · rw [if_neg h2] at hq
        exact Except.noConfusion hq
  · have hfb : (f == "status") = false := by
      simpa using hf
    simp only [createCondition, hfb, Bool.false_eq_true, if_false] at hq
    injection hq with hq2
    rw [← hq2]
    simp [atomMatchesSpec, hf]

/-- The || chain compiled for an array-valued field holds exactly when
some element matches (the disjunction reading). -/
theorem compileOr_ok_iff (f : String) :
    ∀ (vs : List Json) (q : Json → Bool) (res : Json),
      compileOr f vs = .ok q → (q res = true ↔ ∃ v ∈ vs, atomMatchesSpec f v res) := by
  intro vs
  induction vs with
  | nil =>
    intro q res hq
    exact Except.noConfusion hq
  | cons v rest ih =>
    intro q res hq
    cases rest with
    | nil =>
      simp only [compileOr] at hq
      rw [createCondition_ok_iff f v q res hq]
      simp
    | cons r rs =>
      cases hc : createCondition f v with
      | error e =>
        rw [show compileOr f (v :: r :: rs) = Except.error e from by
          simp only [compileOr, hc]; rfl] at hq
        exact Except.noConfusion hq
      | ok p1 =>
        cases hrest : compileOr f (r :: rs) with
        | error e =>
          rw [show compileOr f (v :: r :: rs) = Except.error e from by
            simp only [compileOr, hc, hrest]; rfl] at hq
          exact Except.noConfusion hq
        | ok p2 =>
          rw [show compileOr f (v :: r :: rs)
              = Except.ok (fun res2 => p1 res2 || p2 res2) from by
            simp only [compileOr, hc, hrest]; rfl] at hq
          injection hq with hq2
          rw [← hq2]
          rw [Bool.or_eq_true, createCondition_ok_iff f v p1 res hc, ih p2 res hrest]
          simp [List.exists_mem_cons_iff]

/-- The predicate compiled for one field of a catch definition holds
exactly when the field matches per the specification. -/
theorem compileField_ok_iff (f : String) (cv : CatchVal) (q : Json → Bool) (res : Json)
    (hq : compileField f cv = .ok q) : q res = true ↔ fieldMatchesSpec f cv res := by
  cases cv with
  | one v => exact createCondition_ok_iff f v q res hq
  | many vs => exact compileOr_ok_iff f vs q res hq

/-- The && chain over all fields holds exactly when every field matches
(the conjunction reading). -/
theorem compileAnd_ok_iff :
    ∀ (cd : List (String × CatchVal)) (q : Json → Bool) (res : Json),
      compileAnd cd = .ok q → (q res = true ↔ ∀ p ∈ cd, fieldMatchesSpec p.1 p.2 res) := by
  intro cd
  induction cd with
  | nil =>
    intro q res hq
    exact Except.noConfusion hq
  | cons fc rest ih =>
    intro q res hq
    obtain ⟨f, cv⟩ := fc
    cases rest with
    | nil =>
      simp only [compileAnd] at hq
      rw [compileField_ok_iff f cv q res hq]
      simp [fieldMatchesSpec]
    | cons g gs =>
      cases hc : compileField f cv with
      | error e =>
        rw [show compileAnd ((f, cv) :: g :: gs) = Except.error e from by
          simp only [compileAnd, hc]; rfl] at hq
        exact Except.noConfusion hq
      | ok p1 =>
        cases hrest : compileAnd (g :: gs) with
        | error e =>
          rw [show compileAnd ((f, cv) :: g :: gs) = Except.error e from by
            simp only [compileAnd, hc, hrest]; rfl] at hq
          exact Except.noConfusion hq
        | ok p2 =>
          rw [show compileAnd ((f, cv) :: g :: gs)
              = Except.ok (fun res2 => p1 res2 && p2 res2) from by
            simp only [compileAnd, hc, hrest]; rfl] at hq
          injection hq with hq2
          rw [← hq2]
          rw [Bool.and_eq_true, compileField_ok_iff f cv p1 res hc, ih p2 res hrest]
          simp [List.forall_mem_cons]

/-- Claim C6: a successfully compiled catch / return_if predicate holds
on a response exactly when every field of the condition matches it: an
all-digit status value by integer equality, a digits-and-x status
pattern digit-wise, array values as a disjunction of their elements,
and every non-status field by stable-stringified JSON equality; a
status condition of any other shape raises an Invalid catch condition
error at compile time. -/
theorem c6_catch_predicate :
    (∀ (cd : CatchDef) (q : Json → Bool), compileCatchFunction cd = .ok q →
      ∀ res : Json, q res = true ↔ catchMatchesSpec cd res)
    ∧ (∀ v : Json, isAllDigits (jsToString v) = false →
        isDigitsXPattern (jsToString v) = false →
        compileCatchFunction [("status", .one v)] =
          .error ("Invalid catch condition " ++ jsToString v)) := by
  constructor
  · intro cd q hq res
    exact compileAnd_ok_iff cd q res hq
  · intro v h1 h2
    simp only [compileCatchFunction, compileAnd, compileField, createCondition,
      beq_self_eq_true, if_true, h1, h2, Bool.false_eq_true, if_false]

/-- Witness for C6: the predicate compiled from
status: [404, "5xx"] holds on a 502 response exactly as the
specification reads it (and does hold there), and a boolean status
condition is rejected at compile time. -/
theorem c6_catch_predicate_witness :
    compileCatchFunction [("status", .many [.num 404, .str "5xx"])] =
      .ok (fun res => statusEqNum res 404 || statusPatternTest "5xx" res)
    ∧ ((fun (res : Json) => statusEqNum res 404 || statusPatternTest "5xx" res)
          (.obj [("status", .num 502)]) = true
        ↔ catchMatchesSpec [("status", .many [.num 404, .str "5xx"])]
            (.obj [("status", .num 502)]))
    ∧ (fun (res : Json) => statusEqNum res 404 || statusPatternTest "5xx" res)
        (.obj [("status", .num 502)]) = true
    ∧ isAllDigits (jsToString (.bool true)) = false
    ∧ isDigitsXPattern (jsToString (.bool true)) = false
    ∧ compileCatchFunction [("status", .one (.bool true))] =
        .error ("Invalid catch condition " ++ jsToString (.bool true)) :=
  ⟨rfl,
   c6_catch_predicate.1 [("status", .many [.num 404, .str "5xx"])]
     (fun res => statusEqNum res 404 || statusPatternTest "5xx" res) rfl
     (.obj [("status", .num 502)]),
   by decide,
   by decide,
   by decide,
   c6_catch_predicate.2 (.bool true) (by decide) (by decide)⟩
